import Mathlib

/-!
Shallow embedding of `vexcl/fft.hpp`: the `vex::FFT` adapter around the AMD
clAmdFft library.  External engine calls are modelled by an oracle (`Engine`)
returning status codes and plan handles; each adapter operation (`FFT::init`,
`FFT::~FFT`, `FFT::execute`) is a Lean function that returns the updated
global reference count, the trace of engine calls actually issued, and the
outcome (normal return, assertion abort, or an escaped `cl::Error` exception).
`size_t` arithmetic on the global `fft_ref_count` is modelled modulo `2 ^ 64`.
-/

namespace vex

/-- The error thrown by `check_error`: `cl::Error(status, "AMD FFT")`. -/
structure ClError where
  err : Int
  msg : String
deriving DecidableEq

/-- `clAmdFftPrecision`: only `CLFFT_SINGLE` is used by this file. -/
inductive Precision where
  | single
deriving DecidableEq

/-- `clAmdFftLayout`: only `CLFFT_COMPLEX_INTERLEAVED` is used by this file. -/
inductive Layout where
  | complexInterleaved
deriving DecidableEq

/-- `clAmdFftResultLocation`: `CLFFT_INPLACE` or `CLFFT_OUTOFPLACE`. -/
inductive ResultLocation where
  | inplace
  | outofplace
deriving DecidableEq

/-- `enum fft_direction { forward = CLFFT_FORWARD, inverse = CLFFT_BACKWARD }`. -/
inductive fft_direction where
  | forward
  | inverse
deriving DecidableEq

/-- A `cl::CommandQueue`: we keep its execution context (`CL_QUEUE_CONTEXT`)
and the raw `cl_command_queue` handle, both as opaque identity-comparable
numbers. -/
structure Queue where
  context : Nat
  handle : Nat
deriving DecidableEq

/-- One call into the external AMD FFT engine, with its arguments. -/
inductive EngineCall where
  | setup
  | createDefaultPlan (ctx : Nat) (dim : Nat) (lengths : List Nat)
  | setPlanPrecision (plan : Nat) (prec : Precision)
  | setLayout (plan : Nat) (inLayout outLayout : Layout)
  | setResultLocation (plan : Nat) (loc : ResultLocation)
  | enqueueTransform (plan : Nat) (dir : fft_direction) (queues : List Nat)
      (inBuf outBuf : Nat)
  | destroyPlan (plan : Nat)
  | teardown
deriving DecidableEq

/-- The external engine as an oracle: for each call it yields the status code
the library would return (`0` = `CL_SUCCESS`), and for plan creation also the
handle written through the out-pointer. -/
structure Engine where
  setupStatus : Int
  createDefaultPlan : Nat → Nat → List Nat → Int × Nat
  setPlanPrecisionStatus : Nat → Precision → Int
  setLayoutStatus : Nat → Layout → Layout → Int
  setResultLocationStatus : Nat → ResultLocation → Int
  enqueueTransformStatus : Nat → fft_direction → List Nat → Nat → Nat → Int
  destroyPlanStatus : Nat → Int
  teardownStatus : Int

/-- `FFT::check_error`: `if(status != CL_SUCCESS) throw cl::Error(status, "AMD FFT");` -/
def check_error (status : Int) : Except ClError Unit :=
  if status ≠ 0 then Except.error ⟨status, "AMD FFT"⟩ else Except.ok ()

/-- Sequencing through `check_error`: run the continuation if the status was
success, otherwise the thrown `cl::Error` escapes (is propagated by `err`). -/
def on_status {α : Type} (s : Int) (err : ClError → α) (ok : α) : α :=
  match check_error s with
  | Except.error e => err e
  | Except.ok _ => ok

/-- How a call of an adapter member function terminates: normal return,
a failed runtime `assert` (abort), a failed `static_assert` (the template
instantiation does not compile at all), or an escaped `cl::Error`. -/
inductive Outcome where
  | ok
  | assertFailed
  | staticAssertFailed
  | engineError (e : ClError)
deriving DecidableEq

/-- `size_t` modulus for the global `fft_ref_count`. -/
def size_t_mod : Nat := 2 ^ 64

/-- Result of running `FFT::init` (reached from every constructor): the new
value of the global `fft_ref_count`, the value left in the `plan` member,
the engine calls issued, and the outcome. -/
structure InitResult where
  refCount : Nat
  plan : Nat
  trace : List EngineCall
  outcome : Outcome
deriving DecidableEq

/-- The tail of `FFT::init` after the reference-count increment: plan
creation, precision, and layout configuration (lines 133-136 of the source). -/
def FFT.initPlan (eng : Engine) (rc : Nat) (context : Nat) (lengths : List Nat)
    (t0 : List EngineCall) : InitResult :=
  let created := eng.createDefaultPlan context lengths.length lengths
  let plan := created.2
  let t1 := t0 ++ [EngineCall.createDefaultPlan context lengths.length lengths]
  on_status created.1 (fun e => ⟨rc, plan, t1, Outcome.engineError e⟩)
    (let t2 := t1 ++ [EngineCall.setPlanPrecision plan Precision.single]
     on_status (eng.setPlanPrecisionStatus plan Precision.single)
       (fun e => ⟨rc, plan, t2, Outcome.engineError e⟩)
       (let t3 := t2 ++ [EngineCall.setLayout plan Layout.complexInterleaved
           Layout.complexInterleaved]
        on_status (eng.setLayoutStatus plan Layout.complexInterleaved
            Layout.complexInterleaved)
          (fun e => ⟨rc, plan, t3, Outcome.engineError e⟩)
          ⟨rc, plan, t3, Outcome.ok⟩))

/-- `FFT::init`: asserts `1 <= lengths.size() <= 3`, takes the context of the
first queue, post-increments the global `fft_ref_count` (calling
`clAmdFftSetup` when the old value was `0`), then creates and configures the
plan.  `refCount` is the value of the global `fft_ref_count` on entry; the
`plan` member is `0` on entry (set by every constructor's initializer list). -/
def FFT.init (eng : Engine) (refCount : Nat) (queues : List Queue)
    (lengths : List Nat) : InitResult :=
  if 1 ≤ lengths.length ∧ lengths.length ≤ 3 then
    let context := (queues.headD ⟨0, 0⟩).context
    let rc := (refCount + 1) % size_t_mod
    if refCount = 0 then
      on_status eng.setupStatus
        (fun e => ⟨rc, 0, [EngineCall.setup], Outcome.engineError e⟩)
        (FFT.initPlan eng rc context lengths [EngineCall.setup])
    else
      FFT.initPlan eng rc context lengths []
  else ⟨refCount, 0, [], Outcome.assertFailed⟩

/-- Result of running the destructor `FFT::~FFT`. -/
structure DtorResult where
  refCount : Nat
  trace : List EngineCall
  outcome : Outcome
deriving DecidableEq

/-- `FFT::~FFT`: `if(plan) check_error(clAmdFftDestroyPlan(&plan));
if(--fft_ref_count == 0) check_error(clAmdFftTeardown());`.  Note that when
`clAmdFftDestroyPlan` fails, `check_error` throws before the pre-decrement
runs, so the count is left unchanged. -/
def FFT.destructor (eng : Engine) (refCount : Nat) (plan : Nat) : DtorResult :=
  let destroyTrace : List EngineCall :=
    if plan ≠ 0 then [EngineCall.destroyPlan plan] else []
  let destroyStep : Except ClError Unit :=
    if plan ≠ 0 then check_error (eng.destroyPlanStatus plan) else Except.ok ()
  match destroyStep with
  | Except.error e => ⟨refCount, destroyTrace, Outcome.engineError e⟩
  | Except.ok _ =>
    let rc := (refCount + size_t_mod - 1) % size_t_mod
    if rc = 0 then
      on_status eng.teardownStatus
        (fun e => ⟨rc, destroyTrace ++ [EngineCall.teardown],
            Outcome.engineError e⟩)
        ⟨rc, destroyTrace ++ [EngineCall.teardown], Outcome.ok⟩
    else ⟨rc, destroyTrace, Outcome.ok⟩

/-- The data members of a live `FFT` object: the borrowed queue collection,
the `plan` handle, and the direction fixed at construction. -/
structure FFTState where
  queues : List Queue
  plan : Nat
  dir : fft_direction
deriving DecidableEq

/-- Result of running `FFT::execute`: the (const) object state after the
call, the global reference count after the call, the engine calls issued,
and the outcome. -/
structure ExecResult where
  state : FFTState
  refCount : Nat
  trace : List EngineCall
  outcome : Outcome
deriving DecidableEq

/-- `FFT::execute<negate, append>`: `static_assert(!negate)` rejects the
instantiation at compile time; `assert(!append)` and
`assert(queues.size() == 1)` abort at run time; then the result location is
set from the identity of the buffers' `cl_mem` handles and the transform is
enqueued on the queues with the stored direction.  `inBuf` and `outBuf` are
the device memory handles `input(0)()` and `output(0)()`. -/
def FFT.execute (eng : Engine) (st : FFTState) (refCount : Nat)
    (negate append : Bool) (inBuf outBuf : Nat) : ExecResult :=
  if negate then ⟨st, refCount, [], Outcome.staticAssertFailed⟩
  else if append then ⟨st, refCount, [], Outcome.assertFailed⟩
  else if st.queues.length ≠ 1 then ⟨st, refCount, [], Outcome.assertFailed⟩
  else
    let loc := if inBuf = outBuf then ResultLocation.inplace
      else ResultLocation.outofplace
    let t1 := [EngineCall.setResultLocation st.plan loc]
    on_status (eng.setResultLocationStatus st.plan loc)
      (fun e => ⟨st, refCount, t1, Outcome.engineError e⟩)
      (let qs := st.queues.map Queue.handle
       let t2 := t1 ++ [EngineCall.enqueueTransform st.plan st.dir qs inBuf outBuf]
       on_status (eng.enqueueTransformStatus st.plan st.dir qs inBuf outBuf)
         (fun e => ⟨st, refCount, t2, Outcome.engineError e⟩)
         ⟨st, refCount, t2, Outcome.ok⟩)

/-- An engine on which every call reports `CL_SUCCESS`. -/
def Engine.Succeeds (eng : Engine) : Prop :=
  eng.setupStatus = 0 ∧
  (∀ c d l, (eng.createDefaultPlan c d l).1 = 0) ∧
  (∀ p pr, eng.setPlanPrecisionStatus p pr = 0) ∧
  (∀ p a b, eng.setLayoutStatus p a b = 0) ∧
  (∀ p loc, eng.setResultLocationStatus p loc = 0) ∧
  (∀ p d q i o, eng.enqueueTransformStatus p d q i o = 0) ∧
  (∀ p, eng.destroyPlanStatus p = 0) ∧
  eng.teardownStatus = 0

/-- A concrete always-succeeding engine (plan handles are all `1`). -/
def goodEngine : Engine :=
  ⟨0, fun _ _ _ => (0, 1), fun _ _ => 0, fun _ _ _ => 0, fun _ _ => 0,
   fun _ _ _ _ _ => 0, fun _ => 0, 0⟩

/-- A concrete engine on which `clAmdFftDestroyPlan` fails with status `5`
and every other call succeeds. -/
def badDestroyEngine : Engine :=
  ⟨0, fun _ _ _ => (0, 1), fun _ _ => 0, fun _ _ _ => 0, fun _ _ => 0,
   fun _ _ _ _ _ => 0, fun _ => 5, 0⟩

/-- Sequentially run `FFT::init` for a list of (queues, lengths)
configurations, threading the global reference count; returns the final
count. -/
def constructAll (eng : Engine) (rc : Nat)
    (cfgs : List (List Queue × List Nat)) : Nat :=
  cfgs.foldl (fun c cfg => (FFT.init eng c cfg.1 cfg.2).refCount) rc

/-- Sequentially run `FFT::~FFT` for a list of plan handles, threading the
global reference count; returns the final count. -/
def destroyAll (eng : Engine) (rc : Nat) (plans : List Nat) : Nat :=
  plans.foldl (fun c p => (FFT.destructor eng c p).refCount) rc

theorem on_status_eq {α : Type} (s : Int) (err : ClError → α) (ok : α) :
    on_status s err ok = if s = 0 then ok else err ⟨s, "AMD FFT"⟩ := by
  by_cases h : s = 0 <;> simp [on_status, check_error, h]

theorem goodEngine_succeeds : goodEngine.Succeeds := by
  refine ⟨rfl, ?_, ?_, ?_, ?_, ?_, ?_, rfl⟩ <;> intros <;> rfl

theorem initPlan_refCount (eng : Engine) (rc : Nat) (ctx : Nat)
    (ls : List Nat) (t0 : List EngineCall) :
    (FFT.initPlan eng rc ctx ls t0).refCount = rc := by
  simp only [FFT.initPlan, on_status_eq]
  split_ifs <;> rfl

theorem initPlan_trace_cases (eng : Engine) (rc : Nat) (ctx : Nat)
    (ls : List Nat) (t0 : List EngineCall) :
    (FFT.initPlan eng rc ctx ls t0).trace =
        t0 ++ [EngineCall.createDefaultPlan ctx ls.length ls] ∨
    (FFT.initPlan eng rc ctx ls t0).trace =
        t0 ++ [EngineCall.createDefaultPlan ctx ls.length ls,
          EngineCall.setPlanPrecision (FFT.initPlan eng rc ctx ls t0).plan
            Precision.single] ∨
    (FFT.initPlan eng rc ctx ls t0).trace =
        t0 ++ [EngineCall.createDefaultPlan ctx ls.length ls,
          EngineCall.setPlanPrecision (FFT.initPlan eng rc ctx ls t0).plan
            Precision.single,
          EngineCall.setLayout (FFT.initPlan eng rc ctx ls t0).plan
            Layout.complexInterleaved Layout.complexInterleaved] := by
  simp only [FFT.initPlan, on_status_eq]
  split_ifs <;> simp

theorem initPlan_good (eng : Engine) (rc : Nat) (ctx : Nat)
    (ls : List Nat) (t0 : List EngineCall) (hs : eng.Succeeds) :
    FFT.initPlan eng rc ctx ls t0 =
      ⟨rc, (eng.createDefaultPlan ctx ls.length ls).2,
        t0 ++ [EngineCall.createDefaultPlan ctx ls.length ls,
          EngineCall.setPlanPrecision (eng.createDefaultPlan ctx ls.length ls).2
            Precision.single,
          EngineCall.setLayout (eng.createDefaultPlan ctx ls.length ls).2
            Layout.complexInterleaved Layout.complexInterleaved],
        Outcome.ok⟩ := by
  obtain ⟨-, h2, h3, h4, -⟩ := hs
  simp [FFT.initPlan, on_status_eq, h2, h3, h4]

theorem init_assertFailed (eng : Engine) (rc : Nat) (qs : List Queue)
    (ls : List Nat) (h : ¬(1 ≤ ls.length ∧ ls.length ≤ 3)) :
    FFT.init eng rc qs ls = ⟨rc, 0, [], Outcome.assertFailed⟩ := by
  simp [FFT.init, h]

theorem init_refCount (eng : Engine) (rc : Nat) (qs : List Queue)
    (ls : List Nat) (h : 1 ≤ ls.length ∧ ls.length ≤ 3) :
    (FFT.init eng rc qs ls).refCount = (rc + 1) % size_t_mod := by
  simp only [FFT.init, if_pos h, on_status_eq]
  split_ifs <;> simp [initPlan_refCount]

theorem init_good (eng : Engine) (rc : Nat) (qs : List Queue)
    (ls : List Nat) (hs : eng.Succeeds) (h : 1 ≤ ls.length ∧ ls.length ≤ 3) :
    FFT.init eng rc qs ls =
      ⟨(rc + 1) % size_t_mod,
        (eng.createDefaultPlan (qs.headD ⟨0, 0⟩).context ls.length ls).2,
        (if rc = 0 then [EngineCall.setup] else []) ++
          [EngineCall.createDefaultPlan (qs.headD ⟨0, 0⟩).context ls.length ls,
           EngineCall.setPlanPrecision
             (eng.createDefaultPlan (qs.headD ⟨0, 0⟩).context ls.length ls).2
             Precision.single,
           EngineCall.setLayout
             (eng.createDefaultPlan (qs.headD ⟨0, 0⟩).context ls.length ls).2
             Layout.complexInterleaved Layout.complexInterleaved],
        Outcome.ok⟩ := by
  simp only [FFT.init, if_pos h, on_status_eq, hs.1, if_pos rfl]
  by_cases h0 : rc = 0 <;> simp [h0, initPlan_good eng _ _ _ _ hs]

theorem decr_mod (rc : Nat) (h1 : 1 ≤ rc) (h2 : rc < size_t_mod) :
    (rc + size_t_mod - 1) % size_t_mod = rc - 1 := by
  have he : rc + size_t_mod - 1 = (rc - 1) + size_t_mod := by omega
  rw [he, Nat.add_mod_right, Nat.mod_eq_of_lt (by omega)]

theorem destructor_ok_eq (eng : Engine) (rc : Nat) (plan : Nat)
    (hok : plan = 0 ∨ eng.destroyPlanStatus plan = 0) :
    FFT.destructor eng rc plan =
      if (rc + size_t_mod - 1) % size_t_mod = 0 then
        ⟨(rc + size_t_mod - 1) % size_t_mod,
         (if plan ≠ 0 then [EngineCall.destroyPlan plan] else []) ++
           [EngineCall.teardown],
         if eng.teardownStatus = 0 then Outcome.ok
         else Outcome.engineError ⟨eng.teardownStatus, "AMD FFT"⟩⟩
      else
        ⟨(rc + size_t_mod - 1) % size_t_mod,
         if plan ≠ 0 then [EngineCall.destroyPlan plan] else [],
         Outcome.ok⟩ := by
  have hstep : (if plan ≠ 0 then check_error (eng.destroyPlanStatus plan)
      else Except.ok ()) = Except.ok () := by
    rcases hok with hp | hs
    · simp [hp]
    · by_cases hp : plan = 0 <;> simp [check_error, hp, hs]
  simp only [FFT.destructor, hstep, on_status_eq]
  split_ifs <;> simp_all

theorem destructor_refCount_ok (eng : Engine) (rc : Nat) (plan : Nat)
    (hok : plan = 0 ∨ eng.destroyPlanStatus plan = 0) :
    (FFT.destructor eng rc plan).refCount =
      (rc + size_t_mod - 1) % size_t_mod := by
  rw [destructor_ok_eq eng rc plan hok]
  split_ifs <;> rfl

theorem destructor_teardown_mem (eng : Engine) (rc : Nat) (plan : Nat)
    (hok : plan = 0 ∨ eng.destroyPlanStatus plan = 0) :
    (EngineCall.teardown ∈ (FFT.destructor eng rc plan).trace ↔
      (rc + size_t_mod - 1) % size_t_mod = 0) := by
  rw [destructor_ok_eq eng rc plan hok]
  split_ifs with h0 <;> by_cases hp : plan = 0 <;> simp [hp, h0]

theorem destructor_destroy_fail (eng : Engine) (rc : Nat) (plan : Nat)
    (hp : plan ≠ 0) (hs : eng.destroyPlanStatus plan ≠ 0) :
    FFT.destructor eng rc plan =
      ⟨rc, [EngineCall.destroyPlan plan],
        Outcome.engineError ⟨eng.destroyPlanStatus plan, "AMD FFT"⟩⟩ := by
  have hstep : (if plan ≠ 0 then check_error (eng.destroyPlanStatus plan)
      else Except.ok ()) =
      Except.error ⟨eng.destroyPlanStatus plan, "AMD FFT"⟩ := by
    simp [hp, check_error, hs]
  simp only [FFT.destructor, hstep]
  simp [hp]

theorem destructor_trace_cases (eng : Engine) (rc : Nat) (plan : Nat) :
    (FFT.destructor eng rc plan).trace = [] ∨
    (FFT.destructor eng rc plan).trace = [EngineCall.destroyPlan plan] ∨
    (FFT.destructor eng rc plan).trace = [EngineCall.teardown] ∨
    (FFT.destructor eng rc plan).trace =
      [EngineCall.destroyPlan plan, EngineCall.teardown] := by
  by_cases hp : plan = 0 <;>
    by_cases hs : eng.destroyPlanStatus plan = 0 <;>
      simp only [FFT.destructor, hp, check_error, hs, on_status_eq] <;>
        split_ifs <;> simp

theorem exec_frame (eng : Engine) (st : FFTState) (rc : Nat)
    (negate append : Bool) (inBuf outBuf : Nat) :
    (FFT.execute eng st rc negate append inBuf outBuf).state = st ∧
    (FFT.execute eng st rc negate append inBuf outBuf).refCount = rc := by
  simp only [FFT.execute, on_status_eq]
  split_ifs <;> exact ⟨rfl, rfl⟩

theorem exec_badQueues (eng : Engine) (st : FFTState) (rc : Nat)
    (inBuf outBuf : Nat) (h : st.queues.length ≠ 1) :
    FFT.execute eng st rc false false inBuf outBuf =
      ⟨st, rc, [], Outcome.assertFailed⟩ := by
  simp [FFT.execute, h]

theorem exec_trace_cases (eng : Engine) (st : FFTState) (rc : Nat)
    (inBuf outBuf : Nat) (h : st.queues.length = 1) :
    (FFT.execute eng st rc false false inBuf outBuf).trace =
      [EngineCall.setResultLocation st.plan
        (if inBuf = outBuf then ResultLocation.inplace
         else ResultLocation.outofplace)] ∨
    (FFT.execute eng st rc false false inBuf outBuf).trace =
      [EngineCall.setResultLocation st.plan
        (if inBuf = outBuf then ResultLocation.inplace
         else ResultLocation.outofplace),
       EngineCall.enqueueTransform st.plan st.dir
         (st.queues.map Queue.handle) inBuf outBuf] := by
  by_cases hloc : eng.setResultLocationStatus st.plan
      (if inBuf = outBuf then ResultLocation.inplace
       else ResultLocation.outofplace) = 0
  · by_cases henq : eng.enqueueTransformStatus st.plan st.dir
        (st.queues.map Queue.handle) inBuf outBuf = 0
    · right; simp [FFT.execute, h, on_status_eq, hloc, henq]
    · right; simp [FFT.execute, h, on_status_eq, hloc, henq]
  · left; simp [FFT.execute, h, on_status_eq, hloc]

theorem exec_good (eng : Engine) (st : FFTState) (rc : Nat)
    (inBuf outBuf : Nat) (hs : eng.Succeeds) (h : st.queues.length = 1) :
    FFT.execute eng st rc false false inBuf outBuf =
      ⟨st, rc,
       [EngineCall.setResultLocation st.plan
          (if inBuf = outBuf then ResultLocation.inplace
           else ResultLocation.outofplace),
        EngineCall.enqueueTransform st.plan st.dir
          (st.queues.map Queue.handle) inBuf outBuf],
       Outcome.ok⟩ := by
  obtain ⟨-, -, -, -, h5, h6, -⟩ := hs
  simp [FFT.execute, h, on_status_eq, h5, h6]

theorem initPlan_nodup_of (eng : Engine) (rc : Nat) (ctx : Nat)
    (ls : List Nat) (t0 : List EngineCall)
    (h1 : t0 = [] ∨ t0 = [EngineCall.setup]) :
    (FFT.initPlan eng rc ctx ls t0).trace.Nodup := by
  rcases h1 with h1 | h1
  · subst h1
    rcases initPlan_trace_cases eng rc ctx ls [] with ht | ht | ht <;> simp [ht]
  · subst h1
    rcases initPlan_trace_cases eng rc ctx ls [EngineCall.setup] with
      ht | ht | ht <;> simp [ht]

theorem initPlan_trace_head (eng : Engine) (rc : Nat) (ctx : Nat)
    (ls : List Nat) (t0 : List EngineCall) :
    (FFT.initPlan eng rc ctx ls t0).trace.head? =
      (t0 ++ [EngineCall.createDefaultPlan ctx ls.length ls]).head? := by
  rcases initPlan_trace_cases eng rc ctx ls t0 with ht | ht | ht <;>
    cases t0 <;> simp [ht]

theorem initPlan_setup_mem (eng : Engine) (rc : Nat) (ctx : Nat)
    (ls : List Nat) (t0 : List EngineCall) :
    (EngineCall.setup ∈ (FFT.initPlan eng rc ctx ls t0).trace ↔
      EngineCall.setup ∈ t0) := by
  rcases initPlan_trace_cases eng rc ctx ls t0 with ht | ht | ht <;> simp [ht]

theorem init_setup_mem (eng : Engine) (rc : Nat) (qs : List Queue)
    (ls : List Nat) (h : 1 ≤ ls.length ∧ ls.length ≤ 3) :
    (EngineCall.setup ∈ (FFT.init eng rc qs ls).trace ↔ rc = 0) := by
  simp only [FFT.init, if_pos h, on_status_eq]
  split_ifs with h0 hs
  · simp [initPlan_setup_mem, h0]
  · simp [h0]
  · simp [initPlan_setup_mem, h0]

theorem init_trace_nodup (eng : Engine) (rc : Nat) (qs : List Queue)
    (ls : List Nat) : (FFT.init eng rc qs ls).trace.Nodup := by
  by_cases h : 1 ≤ ls.length ∧ ls.length ≤ 3
  · simp only [FFT.init, if_pos h, on_status_eq]
    split_ifs
    · exact initPlan_nodup_of _ _ _ _ _ (Or.inr rfl)
    · simp
    · exact initPlan_nodup_of _ _ _ _ _ (Or.inl rfl)
  · simp [init_assertFailed eng rc qs ls h]

theorem destructor_trace_nodup (eng : Engine) (rc : Nat) (plan : Nat) :
    (FFT.destructor eng rc plan).trace.Nodup := by
  rcases destructor_trace_cases eng rc plan with ht | ht | ht | ht <;> simp [ht]

theorem exec_trace_nodup (eng : Engine) (st : FFTState) (rc : Nat)
    (negate append : Bool) (inBuf outBuf : Nat) :
    (FFT.execute eng st rc negate append inBuf outBuf).trace.Nodup := by
  cases negate
  · cases append
    · by_cases hq : st.queues.length = 1
      · rcases exec_trace_cases eng st rc inBuf outBuf hq with ht | ht <;> simp [ht]
      · simp [exec_badQueues eng st rc inBuf outBuf hq]
    · simp [FFT.execute]
  · simp [FFT.execute]

theorem initPlan_msg (eng : Engine) (rc : Nat) (ctx : Nat) (ls : List Nat)
    (t0 : List EngineCall) :
    ∀ e, (FFT.initPlan eng rc ctx ls t0).outcome = Outcome.engineError e →
      e.msg = "AMD FFT" := by
  simp only [FFT.initPlan, on_status_eq]
  split_ifs <;> intro e he <;> simp at he <;> subst he <;> rfl

theorem init_msg (eng : Engine) (rc : Nat) (qs : List Queue) (ls : List Nat) :
    ∀ e, (FFT.init eng rc qs ls).outcome = Outcome.engineError e →
      e.msg = "AMD FFT" := by
  by_cases h : 1 ≤ ls.length ∧ ls.length ≤ 3
  · simp only [FFT.init, if_pos h, on_status_eq]
    split_ifs
    · exact initPlan_msg _ _ _ _ _
    · intro e he
      simp at he
      subst he
      rfl
    · exact initPlan_msg _ _ _ _ _
  · intro e he; simp [init_assertFailed eng rc qs ls h] at he

theorem destructor_msg (eng : Engine) (rc : Nat) (plan : Nat) :
    ∀ e, (FFT.destructor eng rc plan).outcome = Outcome.engineError e →
      e.msg = "AMD FFT" := by
  by_cases hp : plan = 0 <;> by_cases hs : eng.destroyPlanStatus plan = 0
  · rw [destructor_ok_eq eng rc plan (Or.inl hp)]
    split_ifs <;> intro e he <;> simp at he <;> subst he <;> rfl
  · rw [destructor_ok_eq eng rc plan (Or.inl hp)]
    split_ifs <;> intro e he <;> simp at he <;> subst he <;> rfl
  · rw [destructor_ok_eq eng rc plan (Or.inr hs)]
    split_ifs <;> intro e he <;> simp at he <;> subst he <;> rfl
  · rw [destructor_destroy_fail eng rc plan hp hs]
    intro e he; simp at he; subst he; rfl

theorem exec_msg (eng : Engine) (st : FFTState) (rc : Nat)
    (negate append : Bool) (inBuf outBuf : Nat) :
    ∀ e, (FFT.execute eng st rc negate append inBuf outBuf).outcome =
      Outcome.engineError e → e.msg = "AMD FFT" := by
  cases negate
  · cases append
    · by_cases hq : st.queues.length = 1
      · simp only [FFT.execute, hq, on_status_eq]
        split_ifs <;> intro e he <;> simp at he <;> subst he <;> rfl
      · simp [exec_badQueues eng st rc inBuf outBuf hq]
    · simp [FFT.execute]
  · simp [FFT.execute]

theorem constructAll_eq (eng : Engine) (cfgs : List (List Queue × List Nat)) :
    ∀ rc : Nat, (∀ cfg ∈ cfgs, 1 ≤ cfg.2.length ∧ cfg.2.length ≤ 3) →
    rc + cfgs.length < size_t_mod →
    constructAll eng rc cfgs = rc + cfgs.length := by
  induction cfgs with
  | nil => intro rc _ _; simp [constructAll]
  | cons cfg rest ih =>
    intro rc hv hlt
    have hvc := hv cfg (List.mem_cons_self cfg rest)
    simp only [List.length_cons] at hlt
    have hrc : (FFT.init eng rc cfg.1 cfg.2).refCount = rc + 1 := by
      rw [init_refCount eng rc cfg.1 cfg.2 hvc]
      exact Nat.mod_eq_of_lt (by omega)
    have hrest : ∀ c ∈ rest, 1 ≤ c.2.length ∧ c.2.length ≤ 3 :=
      fun c hc => hv c (List.mem_cons_of_mem cfg hc)
    have hlt2 : (FFT.init eng rc cfg.1 cfg.2).refCount + rest.length <
        size_t_mod := by rw [hrc]; omega
    calc constructAll eng rc (cfg :: rest)
        = constructAll eng (FFT.init eng rc cfg.1 cfg.2).refCount rest := rfl
      _ = (FFT.init eng rc cfg.1 cfg.2).refCount + rest.length :=
          ih _ hrest hlt2
      _ = rc + (cfg :: rest).length := by
          rw [hrc]; simp only [List.length_cons]; omega

theorem destroyAll_eq (eng : Engine)
    (hsucc : ∀ p, eng.destroyPlanStatus p = 0) (plans : List Nat) :
    ∀ rc : Nat, plans.length ≤ rc → rc < size_t_mod →
    destroyAll eng rc plans = rc - plans.length := by
  induction plans with
  | nil => intro rc _ _; simp [destroyAll]
  | cons p rest ih =>
    intro rc hle hlt
    simp only [List.length_cons] at hle
    have h1 : (FFT.destructor eng rc p).refCount = rc - 1 := by
      rw [destructor_refCount_ok eng rc p (Or.inr (hsucc p))]
      exact decr_mod rc (by omega) hlt
    calc destroyAll eng rc (p :: rest)
        = destroyAll eng (FFT.destructor eng rc p).refCount rest := rfl
      _ = (FFT.destructor eng rc p).refCount - rest.length :=
          ih _ (by rw [h1]; omega) (by rw [h1]; omega)
      _ = rc - (p :: rest).length := by
          rw [h1]; simp only [List.length_cons]; omega

/-- Claim C1 counterexample: the reference count is NOT decremented on every
adapter destruction.  On an engine whose `clAmdFftDestroyPlan` fails (status
`5`), destroying an adapter with plan handle `1` while the global count is
`1` leaves the count at `1` (the thrown `cl::Error` skips the decrement) and
never calls the global teardown. -/
theorem C1_counterexample :
    (FFT.destructor badDestroyEngine 1 1).refCount = 1 ∧
    (FFT.destructor badDestroyEngine 1 1).outcome =
      Outcome.engineError ⟨5, "AMD FFT"⟩ ∧
    EngineCall.teardown ∉ (FFT.destructor badDestroyEngine 1 1).trace := by
  decide

/-- Claim C1 (amended): the global reference count is incremented on every
adapter construction (that passes the dimension assertion), and decremented
on every adapter destruction in which plan destruction does not fail (in
particular whenever the plan handle is null or the engine call succeeds);
`clAmdFftSetup` is invoked exactly when the count transitions 0→1 and
`clAmdFftTeardown` exactly when it transitions 1→0; on any other transition
neither is called. -/
theorem C1_amended_transitions :
    (∀ (eng : Engine) (rc : Nat) (qs : List Queue) (ls : List Nat),
      1 ≤ ls.length → ls.length ≤ 3 →
      (FFT.init eng rc qs ls).refCount = (rc + 1) % size_t_mod ∧
      (EngineCall.setup ∈ (FFT.init eng rc qs ls).trace ↔ rc = 0)) ∧
    (∀ (eng : Engine) (rc plan : Nat),
      1 ≤ rc → rc < size_t_mod →
      (plan = 0 ∨ eng.destroyPlanStatus plan = 0) →
      (FFT.destructor eng rc plan).refCount = rc - 1 ∧
      (EngineCall.teardown ∈ (FFT.destructor eng rc plan).trace ↔ rc = 1)) := by
  constructor
  · intro eng rc qs ls h1 h2
    exact ⟨init_refCount eng rc qs ls ⟨h1, h2⟩,
      init_setup_mem eng rc qs ls ⟨h1, h2⟩⟩
  · intro eng rc plan hge hlt hok
    have hd := decr_mod rc hge hlt
    constructor
    · rw [destructor_refCount_ok eng rc plan hok, hd]
    · rw [destructor_teardown_mem eng rc plan hok, hd]
      omega

/-- Claim C1 witness: the amended theorem applied to the always-succeeding
engine at concrete inputs. -/
theorem C1_amended_witness :
    (FFT.init goodEngine 0 [⟨2, 3⟩] [8]).refCount = (0 + 1) % size_t_mod ∧
    (EngineCall.teardown ∈ (FFT.destructor goodEngine 1 1).trace ↔
      (1 : Nat) = 1) := by
  refine ⟨(C1_amended_transitions.1 goodEngine 0 [⟨2, 3⟩] [8]
      (by decide) (by decide)).1,
    (C1_amended_transitions.2 goodEngine 1 1 (by decide) ?_ (Or.inr rfl)).2⟩
  norm_num [size_t_mod]

/-- Claim C2: in `execute`, the plan's result location is set to
`CLFFT_INPLACE` exactly when the input and output device memory handles are
equal and to `CLFFT_OUTOFPLACE` otherwise, and this
`clAmdFftSetResultLocation` call is the first engine call issued — in
particular it precedes any `clAmdFftEnqueueTransform` in the trace. -/
theorem C2_result_location (eng : Engine) (st : FFTState) (rc : Nat)
    (inBuf outBuf : Nat) (h : st.queues.length = 1) :
    (FFT.execute eng st rc false false inBuf outBuf).trace =
      [EngineCall.setResultLocation st.plan
        (if inBuf = outBuf then ResultLocation.inplace
         else ResultLocation.outofplace)] ∨
    (FFT.execute eng st rc false false inBuf outBuf).trace =
      [EngineCall.setResultLocation st.plan
        (if inBuf = outBuf then ResultLocation.inplace
         else ResultLocation.outofplace),
       EngineCall.enqueueTransform st.plan st.dir
         (st.queues.map Queue.handle) inBuf outBuf] :=
  exec_trace_cases eng st rc inBuf outBuf h

/-- Claim C2 witness: in-place call on the always-succeeding engine with a
single queue and equal buffer handles. -/
theorem C2_witness :
    (FFT.execute goodEngine ⟨[⟨0, 0⟩], 1, fft_direction.forward⟩ 0
        false false 7 7).trace =
      [EngineCall.setResultLocation 1
        (if 7 = 7 then ResultLocation.inplace else ResultLocation.outofplace)] ∨
    (FFT.execute goodEngine ⟨[⟨0, 0⟩], 1, fft_direction.forward⟩ 0
        false false 7 7).trace =
      [EngineCall.setResultLocation 1
        (if 7 = 7 then ResultLocation.inplace else ResultLocation.outofplace),
       EngineCall.enqueueTransform 1 fft_direction.forward [0] 7 7] :=
  C2_result_location goodEngine ⟨[⟨0, 0⟩], 1, fft_direction.forward⟩ 0 7 7 rfl

/-- Claim C3: starting from a zero reference count, N sequential adapter
constructions on a succeeding engine raise the count to N, and the
subsequent destruction of all N adapters (with succeeding plan destruction)
brings it back to 0, regardless of the order of destruction; in particular
one construct-then-destroy pair leaves the count unchanged. -/
theorem C3_refcount_balance :
    ∀ (eng : Engine) (cfgs : List (List Queue × List Nat)) (plans : List Nat),
      eng.Succeeds →
      (∀ cfg ∈ cfgs, 1 ≤ cfg.2.length ∧ cfg.2.length ≤ 3) →
      cfgs.length < size_t_mod →
      plans.length = cfgs.length →
      constructAll eng 0 cfgs = cfgs.length ∧
      destroyAll eng (constructAll eng 0 cfgs) plans = 0 ∧
      (∀ plans2 : List Nat, plans2.length = plans.length →
        destroyAll eng (constructAll eng 0 cfgs) plans2 =
          destroyAll eng (constructAll eng 0 cfgs) plans) ∧
      (∀ (rc : Nat) (qs : List Queue) (ls : List Nat) (p : Nat),
        rc + 1 < size_t_mod → 1 ≤ ls.length → ls.length ≤ 3 →
        (FFT.destructor eng (FFT.init eng rc qs ls).refCount p).refCount = rc) := by
  intro eng cfgs plans hs hv hlt hlen
  obtain ⟨-, -, -, -, -, -, hdestroy, -⟩ := hs
  have hca : constructAll eng 0 cfgs = cfgs.length := by
    have h0 := constructAll_eq eng cfgs 0 hv (by omega)
    simpa using h0
  refine ⟨hca, ?_, ?_, ?_⟩
  · rw [hca, destroyAll_eq eng hdestroy plans cfgs.length (by omega) hlt]
    omega
  · intro plans2 h2
    rw [hca, destroyAll_eq eng hdestroy plans2 cfgs.length (by omega) hlt,
      destroyAll_eq eng hdestroy plans cfgs.length (by omega) hlt, h2]
  · intro rc qs ls p hrc hl1 hl2
    have hi : (FFT.init eng rc qs ls).refCount = rc + 1 := by
      rw [init_refCount eng rc qs ls ⟨hl1, hl2⟩]
      exact Nat.mod_eq_of_lt hrc
    rw [hi, destructor_refCount_ok eng (rc + 1) p (Or.inr (hdestroy p)),
      decr_mod (rc + 1) (by omega) hrc]
    omega

/-- Claim C3 witness: two constructions then two destructions on the
always-succeeding engine. -/
theorem C3_witness :
    constructAll goodEngine 0 [([⟨0, 0⟩], [8]), ([⟨0, 0⟩], [4, 4])] = 2 ∧
    destroyAll goodEngine
      (constructAll goodEngine 0 [([⟨0, 0⟩], [8]), ([⟨0, 0⟩], [4, 4])])
      [1, 2] = 0 := by
  have h := C3_refcount_balance goodEngine
    [([⟨0, 0⟩], [8]), ([⟨0, 0⟩], [4, 4])] [1, 2] goodEngine_succeeds
    (by decide) (by decide) (by decide)
  exact ⟨h.1, h.2.1⟩

/-- Claim C4: on a succeeding engine, construction performs, in order: the
reference-count increment (with `clAmdFftSetup` exactly when the old count
was zero), plan creation from the first queue's context with the given
dimensionality and lengths, setting the plan precision to `CLFFT_SINGLE`,
and setting the layout to `CLFFT_COMPLEX_INTERLEAVED` for both input and
output; the result does not depend on any queue but the first, and a
dimensionality outside 1..3 is rejected by the assertion before any
effect. -/
theorem C4_construction_sequence (eng : Engine) (rc : Nat) (q : Queue)
    (qs : List Queue) (ls : List Nat) (hs : eng.Succeeds)
    (h1 : 1 ≤ ls.length) (h2 : ls.length ≤ 3) :
    ((FFT.init eng rc (q :: qs) ls).outcome = Outcome.ok ∧
     (FFT.init eng rc (q :: qs) ls).refCount = (rc + 1) % size_t_mod ∧
     (FFT.init eng rc (q :: qs) ls).trace =
       (if rc = 0 then [EngineCall.setup] else []) ++
       [EngineCall.createDefaultPlan q.context ls.length ls,
        EngineCall.setPlanPrecision (FFT.init eng rc (q :: qs) ls).plan
          Precision.single,
        EngineCall.setLayout (FFT.init eng rc (q :: qs) ls).plan
          Layout.complexInterleaved Layout.complexInterleaved] ∧
     (∀ qs2 : List Queue,
       FFT.init eng rc (q :: qs2) ls = FFT.init eng rc (q :: qs) ls)) ∧
    (∀ ls2 : List Nat, ¬(1 ≤ ls2.length ∧ ls2.length ≤ 3) →
       FFT.init eng rc (q :: qs) ls2 = ⟨rc, 0, [], Outcome.assertFailed⟩) := by
  have hg2 : ∀ qs2 : List Queue, FFT.init eng rc (q :: qs2) ls =
      ⟨(rc + 1) % size_t_mod,
       (eng.createDefaultPlan q.context ls.length ls).2,
       (if rc = 0 then [EngineCall.setup] else []) ++
         [EngineCall.createDefaultPlan q.context ls.length ls,
          EngineCall.setPlanPrecision
            (eng.createDefaultPlan q.context ls.length ls).2 Precision.single,
          EngineCall.setLayout
            (eng.createDefaultPlan q.context ls.length ls).2
            Layout.complexInterleaved Layout.complexInterleaved],
       Outcome.ok⟩ := by
    intro qs2
    rw [init_good eng rc (q :: qs2) ls hs ⟨h1, h2⟩]
    simp
  refine ⟨⟨?_, ?_, ?_, fun qs2 => ?_⟩,
    fun ls2 hbad => init_assertFailed eng rc (q :: qs) ls2 hbad⟩
  · rw [hg2 qs]
  · rw [hg2 qs]
  · rw [hg2 qs]
  · rw [hg2 qs2, hg2 qs]

/-- Claim C4 witness: concrete 1-dimensional construction on the
always-succeeding engine, first live adapter (count 0 → setup emitted). -/
theorem C4_witness :
    (FFT.init goodEngine 0 [⟨9, 4⟩] [8]).outcome = Outcome.ok ∧
    (FFT.init goodEngine 0 [⟨9, 4⟩] [8]).trace =
      (if (0 : Nat) = 0 then [EngineCall.setup] else []) ++
      [EngineCall.createDefaultPlan 9 1 [8],
       EngineCall.setPlanPrecision (FFT.init goodEngine 0 [⟨9, 4⟩] [8]).plan
         Precision.single,
       EngineCall.setLayout (FFT.init goodEngine 0 [⟨9, 4⟩] [8]).plan
         Layout.complexInterleaved Layout.complexInterleaved] := by
  have h := C4_construction_sequence goodEngine 0 ⟨9, 4⟩ [] [8]
    goodEngine_succeeds (by decide) (by decide)
  exact ⟨h.1.1, h.1.2.2.1⟩

/-- Claim C5: calling `execute` with `append = true` is rejected by the
runtime assertion before any engine call is issued: the trace is empty (no
result-location configuration, no transform enqueue) and, for the only
instantiation that compiles (`negate = false`), the outcome is the
assertion abort with the object and count untouched. -/
theorem C5_append_assert (eng : Engine) (st : FFTState) (rc : Nat)
    (negate : Bool) (inBuf outBuf : Nat) :
    (FFT.execute eng st rc negate true inBuf outBuf).trace = [] ∧
    FFT.execute eng st rc false true inBuf outBuf =
      ⟨st, rc, [], Outcome.assertFailed⟩ := by
  constructor
  · cases negate <;> simp [FFT.execute]
  · simp [FFT.execute]

/-- Claim C6: calling `execute` with other than exactly one configured
queue is rejected by the assertion with no engine call issued; conversely
any call that issues at least one engine call had exactly one queue. -/
theorem C6_queue_assert (eng : Engine) (st : FFTState) (rc : Nat)
    (inBuf outBuf : Nat) :
    (1 < st.queues.length →
      FFT.execute eng st rc false false inBuf outBuf =
        ⟨st, rc, [], Outcome.assertFailed⟩) ∧
    ((FFT.execute eng st rc false false inBuf outBuf).trace ≠ [] →
      st.queues.length = 1) := by
  constructor
  · intro h
    exact exec_badQueues eng st rc inBuf outBuf (by omega)
  · intro h
    by_contra hq
    rw [exec_badQueues eng st rc inBuf outBuf hq] at h
    exact h rfl

/-- Claim C6 witness: two queues configured, execute aborts with an empty
trace. -/
theorem C6_witness :
    FFT.execute goodEngine ⟨[⟨0, 0⟩, ⟨1, 1⟩], 1, fft_direction.forward⟩ 0
        false false 1 2 =
      ⟨⟨[⟨0, 0⟩, ⟨1, 1⟩], 1, fft_direction.forward⟩, 0, [],
        Outcome.assertFailed⟩ :=
  (C6_queue_assert goodEngine ⟨[⟨0, 0⟩, ⟨1, 1⟩], 1, fft_direction.forward⟩ 0
    1 2).1 (by decide)

/-- Claim C7: `check_error` raises exactly one error kind, `cl::Error`
carrying the engine's status code and the fixed tag "AMD FFT", precisely on
non-success statuses; every engine-error outcome of `init`, the destructor,
and `execute` carries that tag; and no engine call is retried — every trace
is duplicate-free. -/
theorem C7_engine_errors :
    (∀ s : Int,
      (s ≠ 0 → check_error s = Except.error ⟨s, "AMD FFT"⟩) ∧
      (s = 0 → check_error s = Except.ok ())) ∧
    (∀ (eng : Engine) (st : FFTState) (rc : Nat) (negate append : Bool)
        (inBuf outBuf : Nat),
      (FFT.execute eng st rc negate append inBuf outBuf).trace.Nodup ∧
      ∀ e, (FFT.execute eng st rc negate append inBuf outBuf).outcome =
        Outcome.engineError e → e.msg = "AMD FFT") ∧
    (∀ (eng : Engine) (rc : Nat) (qs : List Queue) (ls : List Nat),
      (FFT.init eng rc qs ls).trace.Nodup ∧
      ∀ e, (FFT.init eng rc qs ls).outcome = Outcome.engineError e →
        e.msg = "AMD FFT") ∧
    (∀ (eng : Engine) (rc p : Nat),
      (FFT.destructor eng rc p).trace.Nodup ∧
      ∀ e, (FFT.destructor eng rc p).outcome = Outcome.engineError e →
        e.msg = "AMD FFT") := by
  refine ⟨fun s => ⟨fun h => by simp [check_error, h],
      fun h => by simp [check_error, h]⟩, ?_, ?_, ?_⟩
  · intro eng st rc negate append inBuf outBuf
    exact ⟨exec_trace_nodup eng st rc negate append inBuf outBuf,
      exec_msg eng st rc negate append inBuf outBuf⟩
  · intro eng rc qs ls
    exact ⟨init_trace_nodup eng rc qs ls, init_msg eng rc qs ls⟩
  · intro eng rc p
    exact ⟨destructor_trace_nodup eng rc p, destructor_msg eng rc p⟩

/-- Claim C7 witness: a non-success status `5` yields exactly the tagged
error. -/
theorem C7_witness : check_error 5 = Except.error ⟨5, "AMD FFT"⟩ :=
  (C7_engine_errors.1 5).1 (by decide)

/-- Claim C8 counterexample: the count is NOT decremented in every case — if
`clAmdFftDestroyPlan` fails (status `5`) on plan handle `3` while the count
is `2`, the thrown error leaves the count at `2` and skips teardown
entirely. -/
theorem C8_counterexample :
    (FFT.destructor badDestroyEngine 2 3).refCount = 2 ∧
    (FFT.destructor badDestroyEngine 2 3).outcome =
      Outcome.engineError ⟨5, "AMD FFT"⟩ := by
  decide

/-- Claim C8 (amended): destruction destroys the plan only if the plan
handle is non-null; whenever the plan handle is null or plan destruction
succeeds, the global reference count is decremented and global teardown is
performed exactly when the count reaches zero; if plan destruction fails
the error escapes and the count is left undecremented. -/
theorem C8_amended_destructor :
    ∀ (eng : Engine) (rc plan : Nat),
      ((plan ≠ 0 → (FFT.destructor eng rc plan).trace.head? =
          some (EngineCall.destroyPlan plan)) ∧
       (plan = 0 → ∀ p, EngineCall.destroyPlan p ∉
          (FFT.destructor eng rc plan).trace)) ∧
      ((plan = 0 ∨ eng.destroyPlanStatus plan = 0) →
        (FFT.destructor eng rc plan).refCount =
          (rc + size_t_mod - 1) % size_t_mod ∧
        ((FFT.destructor eng rc plan).refCount = 0 ↔
          EngineCall.teardown ∈ (FFT.destructor eng rc plan).trace)) ∧
      (plan ≠ 0 → eng.destroyPlanStatus plan ≠ 0 →
        (FFT.destructor eng rc plan).refCount = rc ∧
        (FFT.destructor eng rc plan).outcome =
          Outcome.engineError ⟨eng.destroyPlanStatus plan, "AMD FFT"⟩) := by
  intro eng rc plan
  refine ⟨⟨?_, ?_⟩, fun hok => ⟨destructor_refCount_ok eng rc plan hok, ?_⟩,
    fun hp hs => ?_⟩
  · intro hp
    by_cases hs : eng.destroyPlanStatus plan = 0
    · rw [destructor_ok_eq eng rc plan (Or.inr hs)]
      split_ifs <;> simp [hp]
    · rw [destructor_destroy_fail eng rc plan hp hs]
      rfl
  · intro hp p
    rw [destructor_ok_eq eng rc plan (Or.inl hp)]
    split_ifs <;> simp_all
  · rw [destructor_refCount_ok eng rc plan hok,
      destructor_teardown_mem eng rc plan hok]
  · rw [destructor_destroy_fail eng rc plan hp hs]
    exact ⟨rfl, rfl⟩

/-- Claim C8 witness: the amended theorem at a non-null plan on the
always-succeeding engine. -/
theorem C8_amended_witness :
    (FFT.destructor goodEngine 1 4).trace.head? =
      some (EngineCall.destroyPlan 4) ∧
    (FFT.destructor goodEngine 1 4).refCount =
      (1 + size_t_mod - 1) % size_t_mod := by
  have h := C8_amended_destructor goodEngine 1 4
  exact ⟨h.1.1 (by decide), (h.2.1 (Or.inr rfl)).1⟩

/-- Claim C9: during construction (with a valid dimensionality), the global
reference count is incremented no matter how the rest of `init` goes — even
when the outcome is an engine error from plan creation or a later
configuration step the count stays incremented — and when the count was
zero, the setup call precedes plan creation at the head of the trace. -/
theorem C9_no_unwind (eng : Engine) (rc : Nat) (qs : List Queue)
    (ls : List Nat) (h1 : 1 ≤ ls.length) (h2 : ls.length ≤ 3) :
    (FFT.init eng rc qs ls).refCount = (rc + 1) % size_t_mod ∧
    (rc = 0 → (FFT.init eng rc qs ls).trace.head? = some EngineCall.setup) ∧
    (∀ e, (FFT.init eng rc qs ls).outcome = Outcome.engineError e →
      (FFT.init eng rc qs ls).refCount = (rc + 1) % size_t_mod) := by
  have hrc := init_refCount eng rc qs ls ⟨h1, h2⟩
  refine ⟨hrc, ?_, fun e _ => hrc⟩
  intro h0
  subst h0
  simp only [FFT.init,
    if_pos (show 1 ≤ ls.length ∧ ls.length ≤ 3 from ⟨h1, h2⟩), on_status_eq]
  split_ifs <;> simp [initPlan_trace_head]

/-- Claim C9 witness: first construction on the always-succeeding engine. -/
theorem C9_witness :
    (FFT.init goodEngine 0 [⟨2, 3⟩] [4, 4]).refCount = (0 + 1) % size_t_mod ∧
    (FFT.init goodEngine 0 [⟨2, 3⟩] [4, 4]).trace.head? =
      some EngineCall.setup := by
  have h := C9_no_unwind goodEngine 0 [⟨2, 3⟩] [4, 4] (by decide) (by decide)
  exact ⟨h.1, h.2.1 rfl⟩

/-- Claim C10: `execute` leaves every adapter field (queues, plan handle,
direction) and the global reference count unchanged, and the result
location is recomputed from the argument buffers on every call: with the
same state, equal buffers configure in-place and distinct buffers
out-of-place, with no reconfiguration needed in between. -/
theorem C10_execute_frame (eng : Engine) (st : FFTState) (rc : Nat)
    (negate append : Bool) (inBuf outBuf : Nat) :
    ((FFT.execute eng st rc negate append inBuf outBuf).state = st ∧
     (FFT.execute eng st rc negate append inBuf outBuf).refCount = rc) ∧
    (st.queues.length = 1 →
      (FFT.execute eng st rc false false inBuf inBuf).trace.head? =
        some (EngineCall.setResultLocation st.plan ResultLocation.inplace) ∧
      (inBuf ≠ outBuf →
        (FFT.execute eng st rc false false inBuf outBuf).trace.head? =
          some (EngineCall.setResultLocation st.plan
            ResultLocation.outofplace))) := by
  refine ⟨exec_frame eng st rc negate append inBuf outBuf,
    fun hq => ⟨?_, fun hne => ?_⟩⟩
  · rcases exec_trace_cases eng st rc inBuf inBuf hq with ht | ht <;> simp [ht]
  · rcases exec_trace_cases eng st rc inBuf outBuf hq with ht | ht <;>
      simp [ht, hne]

/-- Claim C10 witness: one in-place and one out-of-place call on the same
adapter state. -/
theorem C10_witness :
    (FFT.execute goodEngine ⟨[⟨0, 0⟩], 1, fft_direction.forward⟩ 0
        false false 3 3).trace.head? =
      some (EngineCall.setResultLocation 1 ResultLocation.inplace) ∧
    (FFT.execute goodEngine ⟨[⟨0, 0⟩], 1, fft_direction.forward⟩ 0
        false false 3 4).trace.head? =
      some (EngineCall.setResultLocation 1 ResultLocation.outofplace) := by
  have h := C10_execute_frame goodEngine ⟨[⟨0, 0⟩], 1, fft_direction.forward⟩
    0 false false 3 4
  exact ⟨(h.2 rfl).1, (h.2 rfl).2 (by decide)⟩

end vex
